import Mathlib

/-!
Shallow embedding of the BTC last-traded-price service (`main.go`).

The program keeps a concurrent refreshable cache of last-traded prices for a
fixed set of pairs, populated from an upstream ticker API.  We model:

* the data model (`Pair`, `LTPData`, `KrakenPair`, `KrakenTickerResponse`,
  the cache state `PriceCacheState`);
* the cache operations: the admission check at the top of `updatePriceCache`
  (named `tryBeginRefresh` / `endRefresh` after the spec, the code inlines
  them), the map write (`upsert`), the read path of `handleLTP`
  (`snapshot`);
* the refresh cycle `updatePriceCache` itself, with the network turned into
  an explicit input (`Upstream`): each HTTP-fetch-plus-JSON-decode is an
  `Option (Option KrakenTickerResponse)` — `none` means all transport
  retries failed, `some none` means a response arrived but JSON decoding
  failed, `some (some kr)` means the body decoded to `kr`.

Go's `float64` amounts are modelled as `ℚ`; no claim here depends on
floating-point rounding, only on which entries are written with which
decimal value.  `fmt.Sscanf(s, "%f", &price)` with its ignored error is
modelled by `sscanfPrice`: the parsed value when the string starts with a
decimal number, and `0` (the zero value of `price`) otherwise.
Timestamps are abstract naturals; `time.Now()` is an explicit `now` input.
-/

/-- `Pair` from `main.go`: a trading pair (external base/quote symbols and
the display name). -/
structure Pair where
  Base : String
  Quote : String
  Display : String
deriving DecidableEq, Repr

/-- `LTPData` from `main.go`: the price data for a pair. -/
structure LTPData where
  Pair : String
  Amount : ℚ
deriving DecidableEq, Repr

/-- `KrakenPair` from `main.go`: ticker information for a pair;
`c` = last trade closed (price, lot volume). -/
structure KrakenPair where
  C : List String
deriving DecidableEq, Repr

/-- `KrakenTickerResponse` from `main.go`: the decoded upstream response.
The JSON object `result` is modelled as an association list. -/
structure KrakenTickerResponse where
  Error : List String
  Result : List (String × KrakenPair)
deriving DecidableEq, Repr

/-- The fixed `supportedPairs` map from `main.go`, as an association list
keyed by display name. -/
def supportedPairsList : List (String × Pair) :=
  [("BTC/USD", ⟨"XBT", "USD", "BTC/USD"⟩),
   ("BTC/CHF", ⟨"XBT", "CHF", "BTC/CHF"⟩),
   ("BTC/EUR", ⟨"XBT", "EUR", "BTC/EUR"⟩)]

/-- Lookup in the `supportedPairs` map. -/
def supportedLookup (k : String) : Option Pair :=
  supportedPairsList.lookup k

/-- The mutable fields of the `priceCache` global: the `data` map, the
`lastUpdated` timestamp and the `updateRunning` flag. -/
structure PriceCacheState where
  data : String → Option LTPData
  lastUpdated : ℕ
  updateRunning : Bool

/-- The initial cache state: `data: make(map[string]LTPData)`. -/
def initialCache : PriceCacheState :=
  { data := fun _ => none, lastUpdated := 0, updateRunning := false }

/-- The admission check at the top of `updatePriceCache` (the spec's
`tryBeginRefresh`): under the lock, if `updateRunning` is set return
`false` with the state untouched, otherwise set it and return `true`. -/
def tryBeginRefresh (σ : PriceCacheState) : Bool × PriceCacheState :=
  if σ.updateRunning then (false, σ)
  else (true, { σ with updateRunning := true })

/-- The deferred clearing of `updateRunning` in `updatePriceCache` (the
spec's `endRefresh`). -/
def endRefresh (σ : PriceCacheState) : PriceCacheState :=
  { σ with updateRunning := false }

/-- Maximal leading digit run of a character list. -/
def takeDigits (cs : List Char) : List Char × List Char :=
  (cs.takeWhile Char.isDigit, cs.dropWhile Char.isDigit)

/-- Numeric value of a digit list. -/
def digitsVal (cs : List Char) : ℕ :=
  cs.foldl (fun a c => 10 * a + (c.toNat - 48)) 0

/-- Decimal-number scan, modelling what `fmt.Sscanf(s, "%f", &price)`
accepts on the strings this service sees: an optional sign, a non-empty
run of digits, an optional fractional part; trailing input is ignored
(`Sscanf` stops once the verb is satisfied).  `none` when the string does
not start with a decimal number, in which case `Sscanf` reports an error
that `main.go` ignores. -/
def parseDecimal (s : String) : Option ℚ :=
  let signAndRest : ℚ × List Char :=
    match s.data with
    | '-' :: rest => (-1, rest)
    | '+' :: rest => (1, rest)
    | cs => (1, cs)
  let (ds, rest) := takeDigits signAndRest.2
  if ds = [] then none
  else
    let intPart : ℚ := (digitsVal ds : ℚ)
    match rest with
    | '.' :: rest2 =>
      let fs := (takeDigits rest2).1
      some (signAndRest.1 * (intPart + (digitsVal fs : ℚ) / (10 ^ fs.length : ℚ)))
    | _ => some (signAndRest.1 * intPart)

/-- `var price float64; fmt.Sscanf(c0, "%f", &price)` with the error
ignored: the parsed value on success, the zero value `0` on failure. -/
def sscanfPrice (s : String) : ℚ :=
  (parseDecimal s).getD 0

/-- The map write `priceCache.data[k] = v` (the spec's `upsert`). -/
def upsert (data : String → Option LTPData) (k : String) (v : LTPData) :
    String → Option LTPData :=
  fun k' => if k' = k then some v else data k'

/-- The dual key lookup in `processPairResponse`: try the plain
concatenation `Base+Quote` first, then the marked form `X+Base+Z+Quote`. -/
def resolveTicker (result : List (String × KrakenPair)) (p : Pair) :
    Option KrakenPair :=
  match result.lookup (p.Base ++ p.Quote) with
  | some t => some t
  | none => result.lookup ("X" ++ p.Base ++ "Z" ++ p.Quote)

/-- One pair's step inside `processPairResponse`: resolve the ticker under
either key spelling; if found and `len(ticker.C) >= 1`, scan `ticker.C[0]`
and write the entry under the display name; otherwise leave the map
untouched. -/
def processEntry (displayPair : String) (pairInfo : Pair)
    (krakenResponse : KrakenTickerResponse)
    (data : String → Option LTPData) : String → Option LTPData :=
  match resolveTicker krakenResponse.Result pairInfo with
  | none => data
  | some ticker =>
    match ticker.C with
    | [] => data
    | c0 :: _ =>
      upsert data displayPair { Pair := displayPair, Amount := sscanfPrice c0 }

/-- The zero `Pair{}` value passed to `processPairResponse` on the combined
path. -/
def blankPair : Pair := ⟨"", "", ""⟩

/-- `processPairResponse` from `main.go`, acting on the `data` map: in
single-pair mode (`Display != ""`) process just that pair; otherwise
process every supported pair of the combined response. -/
def processPairResponse (singlePair : Pair)
    (krakenResponse : KrakenTickerResponse)
    (data : String → Option LTPData) : String → Option LTPData :=
  if singlePair.Display ≠ "" then
    processEntry singlePair.Display singlePair krakenResponse data
  else
    supportedPairsList.foldl
      (fun d x => processEntry x.1 x.2 krakenResponse d) data

/-- The network, as an explicit input to a refresh cycle.  `batch` is the
outcome of the combined request (after its retry loop); `single k` the
outcome of the individual request for the Kraken pair string `k` (after
its retry loop).  `none` = every transport attempt failed; `some none` =
a response whose body failed to decode; `some (some kr)` = decoded body. -/
structure Upstream where
  batch : Option (Option KrakenTickerResponse)
  single : String → Option (Option KrakenTickerResponse)

/-- One step of the per-pair fallback loop in `updatePriceCache`: skip the
pair on transport failure, decode failure, or a non-empty upstream error
list; otherwise process its response in single-pair mode. -/
def fallbackStep (env : Upstream) (σ : PriceCacheState) (x : String × Pair) :
    PriceCacheState :=
  match env.single (x.2.Base ++ x.2.Quote) with
  | none => σ
  | some none => σ
  | some (some spr) =>
    if spr.Error.length > 0 then σ
    else { σ with data := processPairResponse x.2 spr σ.data }

/-- `updatePriceCache` from `main.go` as a function of the upstream
outcomes and the current time.  Admission first; on batch transport
failure run the per-pair fallback and then set `lastUpdated`; on batch
decode failure or a non-empty batch error list return (only the deferred
flag clear runs); on batch success process the combined response and set
`lastUpdated`. -/
def updatePriceCache (env : Upstream) (now : ℕ) (σ : PriceCacheState) :
    PriceCacheState :=
  match tryBeginRefresh σ with
  | (false, σ1) => σ1
  | (true, σ1) =>
    match env.batch with
    | none =>
      let σ2 := supportedPairsList.foldl (fallbackStep env) σ1
      endRefresh { σ2 with lastUpdated := now }
    | some none => endRefresh σ1
    | some (some krakenResponse) =>
      if krakenResponse.Error.length > 0 then endRefresh σ1
      else
        let σ2 := { σ1 with
          data := processPairResponse blankPair krakenResponse σ1.data }
        endRefresh { σ2 with lastUpdated := now }

/-- `strings.ToUpper` on the ASCII pair names this service handles. -/
def stringsToUpper (s : String) : String :=
  ⟨s.data.map Char.toUpper⟩

/-- The read path of `handleLTP` (the spec's `snapshot`): starting from an
empty response, walk the requested pair names, uppercase each, skip
unsupported ones, and append the cached entry when present. -/
def snapshot (requestedPairs : List String)
    (data : String → Option LTPData) : List LTPData :=
  requestedPairs.foldl
    (fun acc pairName =>
      let u := stringsToUpper pairName
      if (supportedLookup u).isSome then
        match data u with
        | some d => acc ++ [d]
        | none => acc
      else acc)
    []

/-- The invariant of the `data` map: every present key is a supported
display name. -/
def cacheKeysSupported (data : String → Option LTPData) : Prop :=
  ∀ k, (data k).isSome → (supportedLookup k).isSome

/-! Concrete inputs used to instantiate the theorems below. -/

/-- An upstream where the batched request gets a response whose body fails
to decode (and every individual request transport-fails). -/
def envDecodeFail : Upstream := ⟨some none, fun _ => none⟩

/-- A decoded batch response carrying a non-empty upstream error list. -/
def krApplicationError : KrakenTickerResponse := ⟨["EGeneral:Temporary"], []⟩

/-- A decoded response holding a BTC/USD ticker under the marked key. -/
def krOkUSD : KrakenTickerResponse := ⟨[], [("XXBTZUSD", ⟨["100", "1.0"]⟩)]⟩

/-- An upstream whose batch response reports an application error while
every individual request would succeed with usable data. -/
def envAppError : Upstream :=
  ⟨some (some krApplicationError), fun _ => some (some krOkUSD)⟩

/-- A decoded combined response whose BTC/USD price string is not a
decimal number. -/
def krBadPrice : KrakenTickerResponse := ⟨[], [("XBTUSD", ⟨["abc", "1.0"]⟩)]⟩

/-- A cache map holding a prior BTC/USD entry. -/
def dataPrior : String → Option LTPData :=
  upsert (fun _ => none) "BTC/USD" ⟨"BTC/USD", 50000⟩

/-- An upstream that fails every request on every attempt. -/
def envAllFail : Upstream := ⟨none, fun _ => none⟩

/-- A decoded combined response whose BTC/USD ticker carries an empty
`c` array. -/
def krEmptyC : KrakenTickerResponse := ⟨[], [("XBTUSD", ⟨[]⟩)]⟩

/-- A cache state holding the prior BTC/USD entry, mid-life. -/
def statePrior : PriceCacheState := ⟨dataPrior, 3, false⟩

/-! ### Helper lemmas -/

/-- A step of `processPairResponse` never touches a key other than the
display name it writes. -/
theorem processEntry_other {dp k : String} (p : Pair)
    (kr : KrakenTickerResponse) (data : String → Option LTPData)
    (h : k ≠ dp) : processEntry dp p kr data k = data k := by
  unfold processEntry
  rcases hres : resolveTicker kr.Result p with _ | t
  · rfl
  · dsimp only
    rcases hC : t.C with _ | ⟨c0, cs⟩
    · rfl
    · simp [upsert, h]

/-- The value a step of `processPairResponse` leaves at its own key only
depends on the prior value at that key. -/
theorem processEntry_self (dp : String) (p : Pair)
    (kr : KrakenTickerResponse) (d d' : String → Option LTPData)
    (h : d dp = d' dp) :
    processEntry dp p kr d dp = processEntry dp p kr d' dp := by
  unfold processEntry
  rcases hres : resolveTicker kr.Result p with _ | t
  · exact h
  · dsimp only
    rcases hC : t.C with _ | ⟨c0, cs⟩
    · exact h
    · simp [upsert]

/-- When the ticker resolves with a non-empty `c`, the step writes the
scanned price under the display name. -/
theorem processEntry_hit (dp : String) (p : Pair)
    (kr : KrakenTickerResponse) (data : String → Option LTPData)
    (t : KrakenPair) (c0 : String) (cs : List String)
    (hres : resolveTicker kr.Result p = some t) (hC : t.C = c0 :: cs) :
    processEntry dp p kr data dp = some ⟨dp, sscanfPrice c0⟩ := by
  unfold processEntry
  rw [hres]
  dsimp only
  rw [hC]
  simp [upsert]

/-- When the ticker resolves but `c` is empty, the step is the identity. -/
theorem processEntry_emptyC (dp : String) (p : Pair)
    (kr : KrakenTickerResponse) (data : String → Option LTPData)
    (t : KrakenPair) (hres : resolveTicker kr.Result p = some t)
    (hC : t.C = []) : processEntry dp p kr data = data := by
  unfold processEntry
  rw [hres]
  dsimp only
  rw [hC]

/-- Unfolding the combined-path `processPairResponse` into its three
per-pair steps. -/
theorem processPairResponse_combined (kr : KrakenTickerResponse)
    (data : String → Option LTPData) :
    processPairResponse blankPair kr data =
      processEntry "BTC/EUR" ⟨"XBT", "EUR", "BTC/EUR"⟩ kr
        (processEntry "BTC/CHF" ⟨"XBT", "CHF", "BTC/CHF"⟩ kr
          (processEntry "BTC/USD" ⟨"XBT", "USD", "BTC/USD"⟩ kr data)) := rfl

/-- At a supported display name, the combined path behaves like that
pair's own step run directly on the input map. -/
theorem combined_at (kr : KrakenTickerResponse)
    (data : String → Option LTPData) (dp : String) (p : Pair)
    (hmem : (dp, p) ∈ supportedPairsList) :
    processPairResponse blankPair kr data dp = processEntry dp p kr data dp := by
  rw [processPairResponse_combined]
  simp only [supportedPairsList, List.mem_cons, List.not_mem_nil, or_false,
    Prod.mk.injEq] at hmem
  rcases hmem with ⟨h1, h2⟩ | ⟨h1, h2⟩ | ⟨h1, h2⟩ <;> subst h1 <;> subst h2
  · rw [processEntry_other _ _ _ (by decide),
      processEntry_other _ _ _ (by decide)]
  · rw [processEntry_other _ _ _ (by decide)]
    exact processEntry_self _ _ _ _ _ (processEntry_other _ _ _ (by decide))
  · exact processEntry_self _ _ _ _ _ (by
      rw [processEntry_other _ _ _ (by decide),
        processEntry_other _ _ _ (by decide)])

/-! ### Claim theorems -/

/-- C1 (counterexample): on the batch-decode-failure exit path the
staleness clock is not advanced — starting from `lastUpdated = 0`, a cycle
run at time `1` whose batched response fails to decode ends with
`lastUpdated` still `0`, not `1`. -/
theorem lastUpdated_not_advanced_on_decode_failure :
    (updatePriceCache envDecodeFail 1 initialCache).lastUpdated = 0 ∧
      (updatePriceCache envDecodeFail 1 initialCache).lastUpdated ≠ 1 :=
  ⟨rfl, by decide⟩

/-- C1 (amended): after admission, `lastUpdated` is set to `now` on the
batch-success path and on the total-transport-failure fallback path, but
is left unchanged on the batch-decode-failure path and on the
batch-application-error path. -/
theorem lastUpdated_advance_paths (env : Upstream) (now : ℕ)
    (σ : PriceCacheState) (h : σ.updateRunning = false) :
    (env.batch = none → (updatePriceCache env now σ).lastUpdated = now)
    ∧ (∀ kr, env.batch = some (some kr) → kr.Error = [] →
        (updatePriceCache env now σ).lastUpdated = now)
    ∧ (env.batch = some none →
        (updatePriceCache env now σ).lastUpdated = σ.lastUpdated)
    ∧ (∀ kr, env.batch = some (some kr) → kr.Error ≠ [] →
        (updatePriceCache env now σ).lastUpdated = σ.lastUpdated) := by
  refine ⟨fun hb => ?_, fun kr hb he => ?_, fun hb => ?_, fun kr hb he => ?_⟩
  · simp [updatePriceCache, tryBeginRefresh, h, hb, endRefresh]
  · simp [updatePriceCache, tryBeginRefresh, h, hb, he, endRefresh]
  · simp [updatePriceCache, tryBeginRefresh, h, hb, endRefresh]
  · have hlen : kr.Error.length > 0 := List.length_pos.mpr he
    simp [updatePriceCache, tryBeginRefresh, h, hb, hlen, endRefresh]

/-- Witness for C1 (amended) at concrete inputs. -/
theorem lastUpdated_advance_paths_witness :
    (updatePriceCache envAllFail 5 initialCache).lastUpdated = 5 :=
  (lastUpdated_advance_paths envAllFail 5 initialCache rfl).1 rfl

/-- C2 (counterexample): a structurally valid batch response with a
non-empty error list ends the cycle — even though every per-pair request
would have succeeded and yielded a BTC/USD price, the cache stays empty
and the clock does not move; running the same upstream with the batch as
a transport failure (so the fallback does fire) does populate BTC/USD. -/
theorem batch_app_error_no_fallback_cex :
    (updatePriceCache envAppError 1 initialCache).data "BTC/USD" = none
    ∧ (updatePriceCache envAppError 1 initialCache).lastUpdated = 0
    ∧ ((updatePriceCache ⟨none, envAppError.single⟩ 1 initialCache).data
        "BTC/USD").isSome = true :=
  ⟨rfl, rfl, rfl⟩

/-- C2 (amended): a decoded batch response with a non-empty upstream error
list ends the refresh cycle immediately: no per-pair fallback runs, the
cache map and `lastUpdated` are unchanged, and the in-flight flag is
cleared. The per-pair fallback runs only when all batch transport attempts
fail. -/
theorem batch_app_error_ends_cycle (env : Upstream) (now : ℕ)
    (σ : PriceCacheState) (kr : KrakenTickerResponse)
    (h : σ.updateRunning = false) (hb : env.batch = some (some kr))
    (he : kr.Error ≠ []) :
    (updatePriceCache env now σ).data = σ.data
    ∧ (updatePriceCache env now σ).lastUpdated = σ.lastUpdated
    ∧ (updatePriceCache env now σ).updateRunning = false := by
  have hlen : kr.Error.length > 0 := List.length_pos.mpr he
  refine ⟨?_, ?_, ?_⟩ <;>
    simp [updatePriceCache, tryBeginRefresh, h, hb, hlen, endRefresh]

/-- Witness for C2 (amended) at concrete inputs. -/
theorem batch_app_error_ends_cycle_witness :
    (updatePriceCache envAppError 9 initialCache).data = initialCache.data :=
  (batch_app_error_ends_cycle envAppError 9 initialCache krApplicationError
    rfl rfl (by decide)).1

/-- C3 (counterexample): a combined response whose BTC/USD price string
`"abc"` is not a decimal number does not leave the prior cached entry
(amount 50000) unchanged — it replaces it with amount `0`. -/
theorem unparsable_price_overwrites_cex :
    processPairResponse blankPair krBadPrice dataPrior "BTC/USD"
        = some ⟨"BTC/USD", 0⟩
    ∧ dataPrior "BTC/USD" = some ⟨"BTC/USD", 50000⟩
    ∧ processPairResponse blankPair krBadPrice dataPrior "BTC/USD"
        ≠ dataPrior "BTC/USD" := by
  refine ⟨rfl, rfl, ?_⟩
  have h1 : processPairResponse blankPair krBadPrice dataPrior "BTC/USD"
      = some ⟨"BTC/USD", 0⟩ := rfl
  have h2 : dataPrior "BTC/USD" = some ⟨"BTC/USD", 50000⟩ := rfl
  rw [h1, h2]
  intro h
  have hA : (0 : ℚ) = 50000 := congrArg LTPData.Amount (Option.some.inj h)
  norm_num at hA

/-- C3 (amended): when a supported pair's ticker is found under one of the
two candidate keys but its price string `c[0]` does not parse as a decimal
number, the pair's entry is not left unchanged: the ignored scan error
leaves `price` at its zero value and the entry is replaced by one with
amount `0`. -/
theorem unparsable_price_writes_zero (kr : KrakenTickerResponse)
    (data : String → Option LTPData) (dp : String) (p : Pair)
    (t : KrakenPair) (c0 : String) (cs : List String)
    (hmem : (dp, p) ∈ supportedPairsList)
    (hres : resolveTicker kr.Result p = some t) (hC : t.C = c0 :: cs)
    (hbad : parseDecimal c0 = none) :
    processPairResponse blankPair kr data dp = some ⟨dp, 0⟩ := by
  rw [combined_at kr data dp p hmem,
    processEntry_hit dp p kr data t c0 cs hres hC]
  simp [sscanfPrice, hbad]

/-- Witness for C3 (amended) at concrete inputs. -/
theorem unparsable_price_writes_zero_witness :
    processPairResponse blankPair krBadPrice dataPrior "BTC/USD"
      = some ⟨"BTC/USD", 0⟩ :=
  unparsable_price_writes_zero krBadPrice dataPrior "BTC/USD"
    ⟨"XBT", "USD", "BTC/USD"⟩ ⟨["abc", "1.0"]⟩ "abc" ["1.0"]
    (by decide) rfl rfl rfl

/-- C4: the admission check is single-flight — from a state with the flag
clear, the first call returns `true`, a second call without an intervening
`endRefresh` returns `false` and leaves the state untouched, and after
`endRefresh` a call returns `true` again. -/
theorem tryBeginRefresh_single_flight (σ : PriceCacheState)
    (h : σ.updateRunning = false) :
    (tryBeginRefresh σ).1 = true
    ∧ (tryBeginRefresh (tryBeginRefresh σ).2).1 = false
    ∧ (tryBeginRefresh (tryBeginRefresh σ).2).2 = (tryBeginRefresh σ).2
    ∧ (tryBeginRefresh (endRefresh (tryBeginRefresh σ).2)).1 = true := by
  simp [tryBeginRefresh, endRefresh, h]

/-- Witness for C4 at the initial cache state. -/
theorem tryBeginRefresh_single_flight_witness :
    (tryBeginRefresh initialCache).1 = true
    ∧ (tryBeginRefresh (tryBeginRefresh initialCache).2).1 = false
    ∧ (tryBeginRefresh (tryBeginRefresh initialCache).2).2
        = (tryBeginRefresh initialCache).2
    ∧ (tryBeginRefresh (endRefresh (tryBeginRefresh initialCache).2)).1
        = true :=
  tryBeginRefresh_single_flight initialCache rfl

/-- C5: for a supported pair of a combined response, the lookup probes the
plain concatenation `Base+Quote` and the marked form `X+Base+Z+Quote`,
using whichever is present; under either spelling a parsable price is
upserted under the pair's display name. -/
theorem dual_key_resolution (kr : KrakenTickerResponse)
    (data : String → Option LTPData) (dp : String) (p : Pair)
    (t : KrakenPair) (c0 : String) (cs : List String) (q : ℚ)
    (hmem : (dp, p) ∈ supportedPairsList) (hC : t.C = c0 :: cs)
    (hq : parseDecimal c0 = some q) :
    (kr.Result.lookup (p.Base ++ p.Quote) = some t →
      processPairResponse blankPair kr data dp = some ⟨dp, q⟩)
    ∧ (kr.Result.lookup (p.Base ++ p.Quote) = none →
        kr.Result.lookup ("X" ++ p.Base ++ "Z" ++ p.Quote) = some t →
        processPairResponse blankPair kr data dp = some ⟨dp, q⟩) := by
  have hval : sscanfPrice c0 = q := by simp [sscanfPrice, hq]
  constructor
  · intro hplain
    have hres : resolveTicker kr.Result p = some t := by
      unfold resolveTicker
      rw [hplain]
    rw [combined_at kr data dp p hmem,
      processEntry_hit dp p kr data t c0 cs hres hC, hval]
  · intro hplain halt
    have hres : resolveTicker kr.Result p = some t := by
      unfold resolveTicker
      rw [hplain]
      dsimp only
      exact halt
    rw [combined_at kr data dp p hmem,
      processEntry_hit dp p kr data t c0 cs hres hC, hval]

/-- Witness for C5: a response keyed only under the marked form
`"XXBTZUSD"` resolves to BTC/USD with amount 100. -/
theorem dual_key_resolution_witness :
    processPairResponse blankPair krOkUSD (fun _ => none) "BTC/USD"
      = some ⟨"BTC/USD", 100⟩ := by
  have h := (dual_key_resolution krOkUSD (fun _ => none) "BTC/USD"
    ⟨"XBT", "USD", "BTC/USD"⟩ ⟨["100", "1.0"]⟩ "100" ["1.0"]
    (sscanfPrice "100") (by decide) rfl rfl).2 rfl rfl
  have e : sscanfPrice "100" = ((1 : ℚ) * ((100 : ℕ) : ℚ)) := rfl
  rw [h, e]
  norm_num

/-- C8: round-trip of write and read — after upserting the BTC/USD entry
with amount 52000.12 into an empty cache, a snapshot requesting exactly
BTC/USD returns exactly that one entry. -/
theorem upsert_snapshot_roundtrip :
    snapshot ["BTC/USD"]
        (upsert (fun _ => none) "BTC/USD" ⟨"BTC/USD", 52000.12⟩)
      = [⟨"BTC/USD", 52000.12⟩] := rfl

/-- Unrolling the `handleLTP` response loop: the fold with list-append
accumulator is the `filterMap` of the per-name selector. -/
theorem snapshot_go (data : String → Option LTPData) (S : List String) :
    ∀ acc : List LTPData,
      S.foldl (fun acc pairName =>
        let u := stringsToUpper pairName
        if (supportedLookup u).isSome then
          match data u with
          | some d => acc ++ [d]
          | none => acc
        else acc) acc
      = acc ++ S.filterMap (fun pairName =>
          if (supportedLookup (stringsToUpper pairName)).isSome then
            data (stringsToUpper pairName) else none) := by
  induction S with
  | nil => intro acc; simp
  | cons p ps ih =>
    intro acc
    rw [List.foldl_cons, List.filterMap_cons]
    by_cases hsup : (supportedLookup (stringsToUpper p)).isSome
    · rcases hd : data (stringsToUpper p) with _ | d
      · simp only [hsup, if_true, hd]
        rw [ih]
      · simp only [hsup, if_true, hd]
        rw [ih]
        simp
    · simp only [hsup, Bool.false_eq_true, if_false]
      rw [ih]

/-- `snapshot` keeps, in request order, the cached entry of each
requested name that uppercases to a supported key. -/
theorem snapshot_eq_filterMap (S : List String)
    (data : String → Option LTPData) :
    snapshot S data = S.filterMap (fun pairName =>
      if (supportedLookup (stringsToUpper pairName)).isSome then
        data (stringsToUpper pairName) else none) := by
  unfold snapshot
  rw [snapshot_go]
  simp

/-- Supported display names are fixed points of the uppercase
normalization. -/
theorem supported_fix (p : String) (h : (supportedLookup p).isSome) :
    stringsToUpper p = p := by
  by_cases e1 : p = "BTC/USD"
  · subst e1; decide
  by_cases e2 : p = "BTC/CHF"
  · subst e2; decide
  by_cases e3 : p = "BTC/EUR"
  · subst e3; decide
  exfalso
  have b1 : (p == "BTC/USD") = false := beq_eq_false_iff_ne.mpr e1
  have b2 : (p == "BTC/CHF") = false := beq_eq_false_iff_ne.mpr e2
  have b3 : (p == "BTC/EUR") = false := beq_eq_false_iff_ne.mpr e3
  simp [supportedLookup, supportedPairsList, List.lookup, b1, b2, b3] at h

/-- C6: for a duplicate-free request set drawn from the supported pair
set, against a cache whose entries are keyed consistently, `snapshot`
returns exactly the cached entries of the requested pairs — pairs with no
cached value are silently omitted, there are no duplicates, an entry is
returned iff some requested pair has it cached, and adding an unsupported
name to the request changes nothing (no error, silently dropped). -/
theorem snapshot_exact (S : List String) (data : String → Option LTPData)
    (hS : ∀ p ∈ S, (supportedLookup p).isSome) (hnd : S.Nodup)
    (hwf : ∀ k d, data k = some d → d.Pair = k) :
    snapshot S data = S.filterMap data
    ∧ (snapshot S data).Nodup
    ∧ (∀ d, d ∈ snapshot S data ↔ ∃ p ∈ S, data p = some d)
    ∧ (∀ extra : String, ¬(supportedLookup (stringsToUpper extra)).isSome →
        snapshot (S ++ [extra]) data = snapshot S data) := by
  have h1 : snapshot S data = S.filterMap data := by
    rw [snapshot_eq_filterMap]
    apply List.filterMap_congr
    intro p hp
    rw [supported_fix p (hS p hp), if_pos (hS p hp)]
  refine ⟨h1, ?_, ?_, ?_⟩
  · rw [h1]
    refine List.Nodup.filterMap ?_ hnd
    intro a a' b hb hb'
    have ha : data a = some b := hb
    have ha' : data a' = some b := hb'
    rw [← hwf a b ha, ← hwf a' b ha']
  · intro d
    rw [h1, List.mem_filterMap]
  · intro extra hextra
    rw [snapshot_eq_filterMap, snapshot_eq_filterMap, List.filterMap_append]
    simp [hextra]

/-- Witness for C6 at a concrete request list and cache. -/
theorem snapshot_exact_witness :
    snapshot ["BTC/USD", "BTC/EUR"] dataPrior
        = ["BTC/USD", "BTC/EUR"].filterMap dataPrior
    ∧ (snapshot ["BTC/USD", "BTC/EUR"] dataPrior).Nodup
    ∧ (∀ d, d ∈ snapshot ["BTC/USD", "BTC/EUR"] dataPrior ↔
        ∃ p ∈ ["BTC/USD", "BTC/EUR"], dataPrior p = some d)
    ∧ (∀ extra : String, ¬(supportedLookup (stringsToUpper extra)).isSome →
        snapshot (["BTC/USD", "BTC/EUR"] ++ [extra]) dataPrior
          = snapshot ["BTC/USD", "BTC/EUR"] dataPrior) :=
  snapshot_exact ["BTC/USD", "BTC/EUR"] dataPrior (by decide) (by decide)
    (by
      intro k d h
      by_cases hk : k = "BTC/USD"
      · subst hk
        have : d = ⟨"BTC/USD", 50000⟩ :=
          (Option.some.inj (by simpa [dataPrior, upsert] using h.symm))
        rw [this]
      · simp [dataPrior, upsert, hk] at h)

/-- C7: a cycle in which the batch fetch transport-fails and every
per-pair fallback attempt fails (transport failure, decode failure, or an
upstream error list) leaves every cache entry unchanged — any snapshot
after the cycle equals the snapshot before — while `lastUpdated` is still
set to `now`. -/
theorem total_failure_frame (env : Upstream) (now : ℕ) (σ : PriceCacheState)
    (hrun : σ.updateRunning = false) (hb : env.batch = none)
    (hs : ∀ k, env.single k = none ∨ env.single k = some none ∨
      ∃ kr, env.single k = some (some kr) ∧ kr.Error ≠ []) :
    (updatePriceCache env now σ).data = σ.data
    ∧ (updatePriceCache env now σ).lastUpdated = now
    ∧ ∀ S, snapshot S (updatePriceCache env now σ).data = snapshot S σ.data := by
  have hstep : ∀ (σ' : PriceCacheState) (x : String × Pair),
      fallbackStep env σ' x = σ' := by
    intro σ' x
    rcases hs (x.2.Base ++ x.2.Quote) with h | h | ⟨kr, h, he⟩
    · simp [fallbackStep, h]
    · simp [fallbackStep, h]
    · have hlen : kr.Error.length > 0 := List.length_pos.mpr he
      simp [fallbackStep, h, hlen]
  have hfold : ∀ σ' : PriceCacheState,
      supportedPairsList.foldl (fallbackStep env) σ' = σ' := by
    intro σ'
    simp only [supportedPairsList, List.foldl]
    rw [hstep, hstep, hstep]
  have hres : updatePriceCache env now σ =
      ⟨σ.data, now, false⟩ := by
    unfold updatePriceCache
    have ht : tryBeginRefresh σ = (true, { σ with updateRunning := true }) := by
      simp [tryBeginRefresh, hrun]
    rw [ht]
    dsimp only
    rw [hb]
    dsimp only
    rw [hfold]
    rfl
  rw [hres]
  exact ⟨rfl, rfl, fun S => rfl⟩

/-- A per-pair step writes only a supported display name, so it preserves
the key invariant when its target key is supported. -/
theorem processEntry_keys (dp : String) (p : Pair)
    (kr : KrakenTickerResponse) (data : String → Option LTPData)
    (hdp : (supportedLookup dp).isSome) (h : cacheKeysSupported data) :
    cacheKeysSupported (processEntry dp p kr data) := by
  unfold processEntry
  rcases hres : resolveTicker kr.Result p with _ | t
  · exact h
  · dsimp only
    rcases hC : t.C with _ | ⟨c0, cs⟩
    · exact h
    · intro k hk
      by_cases hkdp : k = dp
      · subst hkdp
        exact hdp
      · exact h k (by simpa [upsert, hkdp] using hk)

/-- The combined path writes only the three supported display names. -/
theorem processPairResponse_combined_keys (kr : KrakenTickerResponse)
    (data : String → Option LTPData) (h : cacheKeysSupported data) :
    cacheKeysSupported (processPairResponse blankPair kr data) := by
  rw [processPairResponse_combined]
  exact processEntry_keys _ _ _ _ (by decide)
    (processEntry_keys _ _ _ _ (by decide)
      (processEntry_keys _ _ _ _ (by decide) h))

/-- The single-pair path, invoked with a supported pair, writes only that
pair's display name. -/
theorem processPairResponse_single_keys (x : String × Pair)
    (hx : x ∈ supportedPairsList) (spr : KrakenTickerResponse)
    (data : String → Option LTPData) (h : cacheKeysSupported data) :
    cacheKeysSupported (processPairResponse x.2 spr data) := by
  rcases x with ⟨dp, p⟩
  simp only [supportedPairsList, List.mem_cons, List.not_mem_nil, or_false,
    Prod.mk.injEq] at hx
  rcases hx with ⟨h1, h2⟩ | ⟨h1, h2⟩ | ⟨h1, h2⟩ <;> subst h1 <;> subst h2 <;>
    · simp only [processPairResponse]
      rw [if_pos (by decide)]
      exact processEntry_keys _ _ _ _ (by decide) h

/-- One fallback-loop step preserves the key invariant. -/
theorem fallbackStep_keys (env : Upstream) (x : String × Pair)
    (hx : x ∈ supportedPairsList) (σ : PriceCacheState)
    (h : cacheKeysSupported σ.data) :
    cacheKeysSupported (fallbackStep env σ x).data := by
  unfold fallbackStep
  rcases henv : env.single (x.2.Base ++ x.2.Quote) with _ | o
  · exact h
  · rcases o with _ | spr
    · exact h
    · dsimp only
      by_cases he : spr.Error.length > 0
      · rw [if_pos he]
        exact h
      · rw [if_neg he]
        exact processPairResponse_single_keys x hx spr σ.data h

/-- The whole fallback loop preserves the key invariant. -/
theorem fallbackFold_keys (env : Upstream) (l : List (String × Pair))
    (hl : ∀ x ∈ l, x ∈ supportedPairsList) :
    ∀ σ : PriceCacheState, cacheKeysSupported σ.data →
      cacheKeysSupported ((l.foldl (fallbackStep env) σ).data) := by
  induction l with
  | nil => intro σ h; exact h
  | cons x xs ih =>
    intro σ h
    rw [List.foldl_cons]
    exact ih (fun y hy => hl y (List.mem_cons_of_mem x hy))
      (fallbackStep env σ x)
      (fallbackStep_keys env x (hl x (List.mem_cons_self x xs)) σ h)

/-- C9: the cache's entry map never holds a key outside the supported
pair set — the initial state satisfies the invariant and every refresh
cycle (the only writer; the read path never writes) preserves it, for any
upstream behaviour. -/
theorem cache_keys_supported_invariant :
    cacheKeysSupported initialCache.data
    ∧ ∀ (env : Upstream) (now : ℕ) (σ : PriceCacheState),
        cacheKeysSupported σ.data →
        cacheKeysSupported (updatePriceCache env now σ).data := by
  constructor
  · intro k hk
    simp [initialCache] at hk
  · intro env now σ h
    unfold updatePriceCache
    by_cases hrun : σ.updateRunning
    · have ht : tryBeginRefresh σ = (false, σ) := by simp [tryBeginRefresh, hrun]
      rw [ht]
      exact h
    · have ht : tryBeginRefresh σ = (true, { σ with updateRunning := true }) := by
        simp [tryBeginRefresh, hrun]
      rw [ht]
      dsimp only
      rcases hbatch : env.batch with _ | o
      · dsimp only
        simp only [endRefresh]
        exact fallbackFold_keys env supportedPairsList (fun y hy => hy)
          { σ with updateRunning := true } h
      · rcases o with _ | kr
        · exact h
        · dsimp only
          by_cases he : kr.Error.length > 0
          · rw [if_pos he]
            exact h
          · rw [if_neg he]
            simp only [endRefresh]
            exact processPairResponse_combined_keys kr σ.data h

/-- Witness for C9 at a concrete cycle from the initial state. -/
theorem cache_keys_supported_invariant_witness :
    cacheKeysSupported (updatePriceCache envAllFail 5 initialCache).data :=
  cache_keys_supported_invariant.2 envAllFail 5 initialCache
    (by intro k hk; simp [initialCache] at hk)

/-- C10: a supported pair whose ticker is found but carries an empty `c`
array is skipped without error: its step is the identity on the map, the
pair's entry is unchanged after the combined pass, and every supported
pair's final entry is still exactly its own step's result (processing
continues past the skipped pair). -/
theorem empty_c_skipped (kr : KrakenTickerResponse)
    (data : String → Option LTPData) (dp : String) (p : Pair)
    (t : KrakenPair) (hmem : (dp, p) ∈ supportedPairsList)
    (hres : resolveTicker kr.Result p = some t) (hC : t.C = []) :
    processEntry dp p kr data = data
    ∧ processPairResponse blankPair kr data dp = data dp
    ∧ ∀ dp' p', (dp', p') ∈ supportedPairsList →
        processPairResponse blankPair kr data dp'
          = processEntry dp' p' kr data dp' := by
  have hid : processEntry dp p kr data = data :=
    processEntry_emptyC dp p kr data t hres hC
  exact ⟨hid, by rw [combined_at kr data dp p hmem, hid],
    fun dp' p' hmem' => combined_at kr data dp' p' hmem'⟩

/-- Witness for C10 at a concrete response with an empty `c`. -/
theorem empty_c_skipped_witness :
    processEntry "BTC/USD" ⟨"XBT", "USD", "BTC/USD"⟩ krEmptyC dataPrior = dataPrior
    ∧ processPairResponse blankPair krEmptyC dataPrior "BTC/USD"
        = dataPrior "BTC/USD"
    ∧ ∀ dp' p', (dp', p') ∈ supportedPairsList →
        processPairResponse blankPair krEmptyC dataPrior dp'
          = processEntry dp' p' krEmptyC dataPrior dp' :=
  empty_c_skipped krEmptyC dataPrior "BTC/USD" ⟨"XBT", "USD", "BTC/USD"⟩
    ⟨[]⟩ (by decide) rfl rfl

/-- Witness for C7 at a concrete totally-failing upstream. -/
theorem total_failure_frame_witness :
    (updatePriceCache envAllFail 11 statePrior).data = statePrior.data
    ∧ (updatePriceCache envAllFail 11 statePrior).lastUpdated = 11
    ∧ ∀ S, snapshot S (updatePriceCache envAllFail 11 statePrior).data
        = snapshot S statePrior.data :=
  total_failure_frame envAllFail 11 statePrior rfl rfl (fun _ => Or.inl rfl)
